import Mathlib

/-!
# Verification of the ChatterBot `LogicAdapter` contract and its match search

Shallow embedding of `chatterbot/logic/logic_adapter.py` (the `LogicAdapter`
abstract class) together with the collaborating components its specification
describes.  Parts of the repository that are referenced by the source file but
are not among the provided sources (`chatterbot.adapters.Adapter`,
`chatterbot.utils.import_module`, `chatterbot.comparisons.levenshtein_distance`,
`chatterbot.response_selection.get_first_response`, and the `MatchSearch`
paged best-match algorithm) are modelled from the specification and are marked
as such in their doc comments.

Modelling conventions:
* Python floats are embedded as `ℚ` (the constants involved are exact).
* Python ints are embedded as `ℤ`.
* A raised exception is an `Except.error` value.
* `kwargs` is a record of `Option` fields: `none` means the key is absent.
* The `excluded_words` option is stored without inspection by the constructor,
  so its type is a type parameter `E`; a Lean function polymorphic in `E`
  cannot examine the value, mirroring the absence of any type check.
-/

/-- A unit of dialogue text compared for similarity. -/
structure Statement where
  text : String
  deriving Repr, DecidableEq

/-- A `(statement, score)` pair produced transiently during search. -/
structure ScoredCandidate where
  statement : Statement
  score : ℚ
  deriving Repr, DecidableEq

/-- The type of statement comparison functions (`ScoreFunction` in the spec):
a similarity score for a pair of statements. -/
def CompareFn : Type := Statement → Statement → ℚ

/-- The type of response selection methods (`SelectionFunction` in the spec):
pick one statement from a sequence of scored candidates. -/
def SelectFn : Type := List ScoredCandidate → Option Statement

/-- The edit distance between two character lists. -/
def editDistance : List Char → List Char → Nat
  | [], ys => ys.length
  | x :: xs, [] => (x :: xs).length
  | x :: xs, y :: ys =>
      if x = y then editDistance xs ys
      else 1 + min (editDistance xs (y :: ys))
                   (min (editDistance (x :: xs) ys) (editDistance xs ys))
  termination_by xs ys => xs.length + ys.length

/-- Modelled from the spec: the built-in edit-distance-based scorer
(`levenshtein_distance` from `chatterbot.comparisons`, which is not among the
provided sources; the spec leaves the concrete metric out of scope and only
requires a score in `[0, 1]`): similarity of the two texts normalised by the
longer length. -/
def levenshtein_distance : CompareFn := fun a b =>
  let d := editDistance a.text.toList b.text.toList
  let m := max a.text.length b.text.length
  if m = 0 then 1 else 1 - (d : ℚ) / (m : ℚ)

/-- Modelled from the spec: the default response selection method
(`get_first_response` from `chatterbot.response_selection`, which is not among
the provided sources): pick the first admissible candidate. -/
def get_first_response : SelectFn := fun candidates =>
  candidates.head?.map ScoredCandidate.statement

/-- Modelled from the spec: the error with which identifier resolution fails,
naming the unresolved identifier (`ConfigurationError` in the spec's error
taxonomy). -/
structure ConfigurationError where
  identifier : String
  deriving Repr, DecidableEq

/-- Modelled from the spec: `ConfigResolver` / `chatterbot.utils.import_module`
(not among the provided sources): a registry mapping string identifiers to
callables; resolution fails with a `ConfigurationError` naming the identifier
when it cannot be located. -/
def import_module {F : Type} (registry : List (String × F)) (identifier : String) :
    Except ConfigurationError F :=
  match registry.lookup identifier with
  | some f => Except.ok f
  | none => Except.error ⟨identifier⟩

/-- A configuration value that is either a string identifier or already a
callable, mirroring Python's `isinstance(import_path, str)` dichotomy in
`LogicAdapter.__init__`. -/
inductive StrOrFn (F : Type) where
  | str (s : String)
  | fn (f : F)
  deriving Repr

/-- The keyword-argument mapping accepted by `LogicAdapter.__init__`; a `none`
field models an absent key (`'…' in kwargs` false / `kwargs.get` default). -/
structure Kwargs (E : Type) where
  statement_comparison_function : Option (StrOrFn CompareFn)
  response_selection_method : Option (StrOrFn SelectFn)
  maximum_similarity_threshold : Option ℚ
  excluded_words : Option E
  search_page_size : Option ℤ

/-- The state stored by `LogicAdapter.__init__` on `self`. The `className`
field models `self.__class__.__name__` (the concrete class the instance was
constructed as). -/
structure LogicAdapter (E : Type) where
  maximum_similarity_threshold : ℚ
  excluded_words : Option E
  search_page_size : ℤ
  compare_statements : CompareFn
  select_response : SelectFn
  className : String

/-- The `# Import string module parameters` block of `LogicAdapter.__init__`,
for one option: a string identifier is resolved with `import_module`; any
other supplied value is left unchanged; an absent key is left absent. -/
def resolveOption {F : Type} (registry : List (String × F)) :
    Option (StrOrFn F) → Except ConfigurationError (Option F)
  | some (StrOrFn.str p) =>
      match import_module registry p with
      | Except.ok f => Except.ok (some f)
      | Except.error e => Except.error e
  | some (StrOrFn.fn f) => Except.ok (some f)
  | none => Except.ok none

/-- `LogicAdapter.__init__`: resolve string-valued strategy options, then store
each option's value, falling back to the documented default when the key is
absent (`kwargs.get(key, default)`); `excluded_words` is stored as
`kwargs.get('excluded_words')`, with no default and no inspection. -/
def LogicAdapter.init {E : Type} (className : String)
    (registryC : List (String × CompareFn)) (registryS : List (String × SelectFn))
    (kwargs : Kwargs E) : Except ConfigurationError (LogicAdapter E) :=
  match resolveOption registryC kwargs.statement_comparison_function with
  | Except.error e => Except.error e
  | Except.ok comparisonOption =>
    match resolveOption registryS kwargs.response_selection_method with
    | Except.error e => Except.error e
    | Except.ok selectionOption =>
      Except.ok
        { maximum_similarity_threshold :=
            kwargs.maximum_similarity_threshold.getD (95 / 100)
          excluded_words := kwargs.excluded_words
          search_page_size := kwargs.search_page_size.getD 1000
          compare_statements := comparisonOption.getD levenshtein_distance
          select_response := selectionOption.getD get_first_response
          className := className }

/-- `LogicAdapter.can_process`: the base contract's preliminary check; a pure
function that returns `True` for every statement. -/
def LogicAdapter.can_process {E : Type} (_adapter : LogicAdapter E)
    (_statement : Statement) : Bool :=
  true

/-- Modelled from the spec: the `AdapterMethodNotImplementedError` signal
defined on the base `Adapter` class (`chatterbot/adapters.py`, not among the
provided sources); per the spec it is a `NotImplementedError`-class signal,
recorded here by `isNotImplementedErrorClass`. -/
inductive AdapterSignal where
  | adapterMethodNotImplementedError
  deriving Repr, DecidableEq

/-- Whether a raised adapter signal belongs to Python's `NotImplementedError`
class. Modelled from the spec: the base `Adapter` class declares
`AdapterMethodNotImplementedError` as a `NotImplementedError` subclass. -/
def AdapterSignal.isNotImplementedErrorClass : AdapterSignal → Bool
  | adapterMethodNotImplementedError => true

/-- `LogicAdapter.process`: the abstract contract raises
`self.AdapterMethodNotImplementedError()` for every input statement; a
confidence-scored response is never produced at this level. -/
def LogicAdapter.process {E : Type} (_adapter : LogicAdapter E)
    (_statement : Statement) : Except AdapterSignal (Statement × ℚ) :=
  Except.error AdapterSignal.adapterMethodNotImplementedError

/-- `LogicAdapter.class_name`: `str(self.__class__.__name__)`, a pure
projection of the concrete class name. -/
def LogicAdapter.class_name {E : Type} (adapter : LogicAdapter E) : String :=
  adapter.className

/-- Split a character sequence into space-separated tokens. -/
def splitTokens : List Char → List (List Char)
  | [] => [[]]
  | c :: rest =>
    if c = ' ' then [] :: splitTokens rest
    else
      match splitTokens rest with
      | [] => [[c]]
      | t :: ts => (c :: t) :: ts

/-- Modelled from the spec: `ExclusionFilter.rejects` (§4.3, not among the
provided sources): case-insensitive whole-word match of the text's tokens
against the configured excluded words; an empty exclusion set rejects
nothing. -/
def ExclusionFilter.rejects (excluded : List String) (text : String) : Bool :=
  (splitTokens (text.toList.map Char.toLower)).any
    (fun w => excluded.any (fun e => e.toList.map Char.toLower = w))

section MatchSearch

variable (input : Statement) (score_fn : Statement → Statement → ℚ)
variable (rejects : String → Bool) (threshold : ℚ)

/-- Modelled from the spec: MatchSearch step 3c — the running-best update for
one scored statement: take the new candidate exactly when there is no running
best yet or the new score is strictly greater. -/
def bestUpdate (best : Option ScoredCandidate) (s : Statement) : ScoredCandidate :=
  match best with
  | none => ⟨s, score_fn input s⟩
  | some b => if b.score < score_fn input s then ⟨s, score_fn input s⟩ else b

/-- Modelled from the spec: MatchSearch step 3 — process the statements of one
page in order: skip a statement rejected by the exclusion predicate without
scoring it; otherwise score it, update the running best, and terminate as soon
as the running best's score is `≥ threshold`.  Returns the running best, the
list of statements that were actually scored, and whether the search halted
early. -/
def searchPage (best : Option ScoredCandidate) :
    List Statement → Option ScoredCandidate × List Statement × Bool
  | [] => (best, [], false)
  | s :: rest =>
    if rejects s.text then
      searchPage best rest
    else
      let b := bestUpdate input score_fn best s
      if threshold ≤ b.score then
        (some b, [s], true)
      else
        let r := searchPage (some b) rest
        (r.1, s :: r.2.1, r.2.2)

/-- Modelled from the spec: MatchSearch steps 2–4 — consume the corpus page by
page, carrying the running best across pages, and stop fetching pages once a
page halted early.  Returns the final best, the flat list of scored
statements, and the pages that were never fetched. -/
def searchPages (best : Option ScoredCandidate) :
    List (List Statement) →
      Option ScoredCandidate × List Statement × List (List Statement)
  | [] => (best, [], [])
  | page :: rest =>
    let r := searchPage input score_fn rejects threshold best page
    if r.2.2 then
      (r.1, r.2.1, rest)
    else
      let r2 := searchPages r.1 rest
      (r2.1, r.2.1 ++ r2.2.1, r2.2.2)

/-- Modelled from the spec: `MatchSearch.search` — the best-scoring admissible
candidate found by the paged scan starting from no candidate, or `none` when
the corpus is empty or every statement was excluded. -/
def mSearch (pages : List (List Statement)) : Option ScoredCandidate :=
  (searchPages input score_fn rejects threshold none pages).1

/-- The running best after folding an entire list of (already admissible,
scored) statements, starting from `best`. -/
def runBest (best : Option ScoredCandidate) (l : List Statement) :
    Option ScoredCandidate :=
  l.foldl (fun o s => some (bestUpdate input score_fn o s)) best

/-- A running best strictly below the threshold (vacuously true for `none`). -/
def below (o : Option ScoredCandidate) : Prop :=
  ∀ b ∈ o, b.score < threshold

end MatchSearch

/-! ## Characterization lemmas for `LogicAdapter.init` -/

/-- `resolveOption` fails exactly on a string option whose identifier is not in
the registry, and the error names that identifier. -/
lemma resolveOption_error_iff {F : Type} (registry : List (String × F))
    (o : Option (StrOrFn F)) (e : ConfigurationError) :
    resolveOption registry o = Except.error e ↔
      o = some (StrOrFn.str e.identifier) ∧ registry.lookup e.identifier = none := by
  cases o with
  | none => simp [resolveOption]
  | some v =>
    cases v with
    | fn f => simp [resolveOption]
    | str p =>
      simp only [resolveOption, import_module]
      cases hl : registry.lookup p with
      | some f =>
        simp only [hl]
        constructor
        · intro h
          cases h
        · rintro ⟨hp, hnone⟩
          injection hp with hp
          injection hp with hp
          rw [hp] at hl
          rw [hl] at hnone
          cases hnone
      | none =>
        simp only [hl]
        cases e with
        | mk i =>
          simp only [Except.error.injEq, ConfigurationError.mk.injEq,
            Option.some.injEq, StrOrFn.str.injEq]
          constructor
          · rintro rfl
            exact ⟨rfl, hl⟩
          · rintro ⟨rfl, _⟩
            rfl

/-- Successful construction: both strategy options resolved, and the stored
fields are exactly the resolved-or-default values. -/
lemma init_ok_iff {E : Type} (className : String)
    (registryC : List (String × CompareFn)) (registryS : List (String × SelectFn))
    (kwargs : Kwargs E) (adapter : LogicAdapter E) :
    LogicAdapter.init className registryC registryS kwargs = Except.ok adapter ↔
      ∃ co so,
        resolveOption registryC kwargs.statement_comparison_function = Except.ok co ∧
        resolveOption registryS kwargs.response_selection_method = Except.ok so ∧
        adapter =
          { maximum_similarity_threshold :=
              kwargs.maximum_similarity_threshold.getD (95 / 100)
            excluded_words := kwargs.excluded_words
            search_page_size := kwargs.search_page_size.getD 1000
            compare_statements := co.getD levenshtein_distance
            select_response := so.getD get_first_response
            className := className } := by
  unfold LogicAdapter.init
  cases hc : resolveOption registryC kwargs.statement_comparison_function with
  | error e => simp [hc]
  | ok co =>
    cases hs : resolveOption registryS kwargs.response_selection_method with
    | error e => simp [hs]
    | ok so => simp [hc, hs, eq_comm]

/-- The adapter stored by a successful construction with every option absent:
all five configuration fields hold their documented defaults. -/
def defaultConstructedAdapter : LogicAdapter Unit :=
  ⟨95 / 100, none, 1000, levenshtein_distance, get_first_response, "LogicAdapter"⟩

/-- Failed construction: the error is the first unresolved string option, with
comparison resolved before selection. -/
lemma init_error_iff {E : Type} (className : String)
    (registryC : List (String × CompareFn)) (registryS : List (String × SelectFn))
    (kwargs : Kwargs E) (e : ConfigurationError) :
    LogicAdapter.init className registryC registryS kwargs = Except.error e ↔
      resolveOption registryC kwargs.statement_comparison_function = Except.error e ∨
      ((∃ co, resolveOption registryC kwargs.statement_comparison_function =
          Except.ok co) ∧
        resolveOption registryS kwargs.response_selection_method = Except.error e) := by
  unfold LogicAdapter.init
  cases hc : resolveOption registryC kwargs.statement_comparison_function with
  | error e' => simp [hc]
  | ok co =>
    cases hs : resolveOption registryS kwargs.response_selection_method with
    | error e' => simp [hs]
    | ok so => simp [hs]

/-! ## Claims about the `LogicAdapter` contract -/

/-- C2: every option omitted from the configuration mapping takes its
documented default: `maximum_similarity_threshold = 0.95`,
`search_page_size = 1000`, `excluded_words = None`,
`compare_statements = levenshtein_distance`, and
`select_response = get_first_response`. -/
theorem logicAdapter_init_defaults {E : Type} (className : String)
    (registryC : List (String × CompareFn)) (registryS : List (String × SelectFn))
    (kwargs : Kwargs E) (adapter : LogicAdapter E)
    (h : LogicAdapter.init className registryC registryS kwargs = Except.ok adapter) :
    (kwargs.maximum_similarity_threshold = none →
      adapter.maximum_similarity_threshold = 95 / 100) ∧
    (kwargs.search_page_size = none → adapter.search_page_size = 1000) ∧
    (kwargs.excluded_words = none → adapter.excluded_words = none) ∧
    (kwargs.statement_comparison_function = none →
      adapter.compare_statements = levenshtein_distance) ∧
    (kwargs.response_selection_method = none →
      adapter.select_response = get_first_response) := by
  obtain ⟨co, so, hc, hs, rfl⟩ :=
    (init_ok_iff className registryC registryS kwargs adapter).mp h
  refine ⟨fun hn => by simp [hn], fun hn => by simp [hn], fun hn => hn, ?_, ?_⟩
  · intro hn
    rw [hn] at hc
    simp only [resolveOption] at hc
    injection hc with hc
    subst hc
    rfl
  · intro hn
    rw [hn] at hs
    simp only [resolveOption] at hs
    injection hs with hs
    subst hs
    rfl

/-- Witness for C2: constructing with an empty configuration mapping yields an
adapter whose five fields are exactly the documented defaults. -/
theorem logicAdapter_init_defaults_witness :
    defaultConstructedAdapter.maximum_similarity_threshold = 95 / 100 ∧
    defaultConstructedAdapter.search_page_size = 1000 ∧
    defaultConstructedAdapter.excluded_words = none ∧
    defaultConstructedAdapter.compare_statements = levenshtein_distance ∧
    defaultConstructedAdapter.select_response = get_first_response := by
  have h := logicAdapter_init_defaults "LogicAdapter" [] []
    (⟨none, none, none, none, none⟩ : Kwargs Unit) defaultConstructedAdapter rfl
  exact ⟨h.1 rfl, h.2.1 rfl, h.2.2.1 rfl, h.2.2.2.1 rfl, h.2.2.2.2 rfl⟩

/-- C3: a strategy option supplied as a string identifier — either
`statement_comparison_function` or `response_selection_method` — is resolved
into the registered callable before being stored; if resolution fails,
construction fails with a `ConfigurationError` naming the unresolved
identifier (for the selection option under the source's sequencing, i.e. once
the comparison option has resolved), and every construction failure arises
from one of the two unresolved identifiers. -/
theorem logicAdapter_init_resolution {E : Type} (className : String)
    (registryC : List (String × CompareFn)) (registryS : List (String × SelectFn))
    (kwargs : Kwargs E) :
    (∀ ident f adapter,
        kwargs.statement_comparison_function = some (StrOrFn.str ident) →
        registryC.lookup ident = some f →
        LogicAdapter.init className registryC registryS kwargs = Except.ok adapter →
        adapter.compare_statements = f) ∧
    (∀ ident g adapter,
        kwargs.response_selection_method = some (StrOrFn.str ident) →
        registryS.lookup ident = some g →
        LogicAdapter.init className registryC registryS kwargs = Except.ok adapter →
        adapter.select_response = g) ∧
    (∀ ident,
        kwargs.statement_comparison_function = some (StrOrFn.str ident) →
        registryC.lookup ident = none →
        LogicAdapter.init className registryC registryS kwargs = Except.error ⟨ident⟩) ∧
    (∀ ident co,
        kwargs.response_selection_method = some (StrOrFn.str ident) →
        registryS.lookup ident = none →
        resolveOption registryC kwargs.statement_comparison_function =
          Except.ok co →
        LogicAdapter.init className registryC registryS kwargs = Except.error ⟨ident⟩) ∧
    (∀ e,
        LogicAdapter.init className registryC registryS kwargs = Except.error e →
        (kwargs.statement_comparison_function = some (StrOrFn.str e.identifier) ∧
            registryC.lookup e.identifier = none) ∨
          (kwargs.response_selection_method = some (StrOrFn.str e.identifier) ∧
            registryS.lookup e.identifier = none)) := by
  refine ⟨?_, ?_, ?_, ?_, ?_⟩
  · intro ident f adapter hopt hreg h
    obtain ⟨co, so, hc, hs, rfl⟩ :=
      (init_ok_iff className registryC registryS kwargs adapter).mp h
    rw [hopt] at hc
    simp only [resolveOption, import_module, hreg] at hc
    injection hc with hc
    subst hc
    rfl
  · intro ident g adapter hopt hreg h
    obtain ⟨co, so, hc, hs, rfl⟩ :=
      (init_ok_iff className registryC registryS kwargs adapter).mp h
    rw [hopt] at hs
    simp only [resolveOption, import_module, hreg] at hs
    injection hs with hs
    subst hs
    rfl
  · intro ident hopt hreg
    refine (init_error_iff className registryC registryS kwargs ⟨ident⟩).mpr (Or.inl ?_)
    exact (resolveOption_error_iff registryC
      kwargs.statement_comparison_function ⟨ident⟩).mpr ⟨hopt, hreg⟩
  · intro ident co hopt hreg hc
    refine (init_error_iff className registryC registryS kwargs ⟨ident⟩).mpr
      (Or.inr ⟨⟨co, hc⟩, ?_⟩)
    exact (resolveOption_error_iff registryS
      kwargs.response_selection_method ⟨ident⟩).mpr ⟨hopt, hreg⟩
  · intro e h
    rcases (init_error_iff className registryC registryS kwargs e).mp h with h1 | ⟨_, h2⟩
    · exact Or.inl ((resolveOption_error_iff registryC
        kwargs.statement_comparison_function e).mp h1)
    · exact Or.inr ((resolveOption_error_iff registryS
        kwargs.response_selection_method e).mp h2)

/-- Witness for C3: an unregistered identifier for either strategy option
makes construction fail with a `ConfigurationError` naming it, while a
registered identifier is resolved to the registered callable. -/
theorem logicAdapter_init_resolution_witness :
    LogicAdapter.init "LogicAdapter" [] []
        (⟨some (StrOrFn.str "missing"), none, none, none, none⟩ : Kwargs Unit) =
      Except.error ⟨"missing"⟩ ∧
    LogicAdapter.init "LogicAdapter" [] []
        (⟨none, some (StrOrFn.str "missingsel"), none, none, none⟩ : Kwargs Unit) =
      Except.error ⟨"missingsel"⟩ ∧
    (⟨95 / 100, none, 1000, levenshtein_distance, get_first_response,
        "LogicAdapter"⟩ : LogicAdapter Unit).compare_statements =
      levenshtein_distance := by
  refine ⟨?_, ?_, ?_⟩
  · exact (logicAdapter_init_resolution "LogicAdapter" [] []
      (⟨some (StrOrFn.str "missing"), none, none, none, none⟩ : Kwargs Unit)).2.2.1
      "missing" rfl rfl
  · exact (logicAdapter_init_resolution "LogicAdapter" [] []
      (⟨none, some (StrOrFn.str "missingsel"), none, none, none⟩ :
        Kwargs Unit)).2.2.2.1 "missingsel" none rfl rfl rfl
  · exact (logicAdapter_init_resolution "LogicAdapter"
      [("cmp", levenshtein_distance)] []
      (⟨some (StrOrFn.str "cmp"), none, none, none, none⟩ : Kwargs Unit)).1
      "cmp" levenshtein_distance
      ⟨95 / 100, none, 1000, levenshtein_distance, get_first_response,
        "LogicAdapter"⟩ rfl rfl rfl

/-- C4: `process` on the abstract contract fails for every adapter and every
input statement with the `AdapterMethodNotImplementedError` signal, which is a
`NotImplementedError`-class signal; no response is ever produced. -/
theorem logicAdapter_process_not_implemented {E : Type} (adapter : LogicAdapter E)
    (statement : Statement) :
    adapter.process statement =
      Except.error AdapterSignal.adapterMethodNotImplementedError ∧
    AdapterSignal.adapterMethodNotImplementedError.isNotImplementedErrorClass = true :=
  ⟨rfl, rfl⟩

/-- C5: the base contract's `can_process` returns `true` for every adapter and
every statement; being a total pure function of its arguments, it has no side
effects and cannot raise. -/
theorem logicAdapter_can_process_true {E : Type} (adapter : LogicAdapter E)
    (statement : Statement) :
    adapter.can_process statement = true :=
  rfl

/-- Counterexample to C7: supplying `maximum_similarity_threshold = 2`
constructs successfully (the constructor performs no validation), and the
stored threshold violates `maximum_similarity_threshold ≤ 1`. -/
theorem logicAdapter_config_invariant_counterexample :
    LogicAdapter.init "LogicAdapter" [] []
        (⟨none, none, some 2, none, none⟩ : Kwargs Unit) =
      Except.ok
        ⟨2, none, 1000, levenshtein_distance, get_first_response, "LogicAdapter"⟩ ∧
    ¬((⟨2, none, 1000, levenshtein_distance, get_first_response,
          "LogicAdapter"⟩ : LogicAdapter Unit).maximum_similarity_threshold ≤ 1) := by
  refine ⟨rfl, ?_⟩
  show ¬((2 : ℚ) ≤ 1)
  norm_num

/-- C7 as amended: the constructor stores the supplied-or-default threshold and
page size unvalidated; consequently `0 ≤ maximum_similarity_threshold ≤ 1` and
`search_page_size > 0` hold after construction exactly when each option is
omitted (so the default applies) or the supplied value itself satisfies the
bound, and the stored values are determined once by the construction. -/
theorem logicAdapter_config_invariant_amended {E : Type} (className : String)
    (registryC : List (String × CompareFn)) (registryS : List (String × SelectFn))
    (kwargs : Kwargs E) (adapter : LogicAdapter E)
    (h : LogicAdapter.init className registryC registryS kwargs = Except.ok adapter) :
    adapter.maximum_similarity_threshold =
      kwargs.maximum_similarity_threshold.getD (95 / 100) ∧
    adapter.search_page_size = kwargs.search_page_size.getD 1000 ∧
    ((kwargs.maximum_similarity_threshold = none ∨
        ∃ t, kwargs.maximum_similarity_threshold = some t ∧ 0 ≤ t ∧ t ≤ 1) →
      0 ≤ adapter.maximum_similarity_threshold ∧
        adapter.maximum_similarity_threshold ≤ 1) ∧
    ((kwargs.search_page_size = none ∨
        ∃ p, kwargs.search_page_size = some p ∧ 0 < p) →
      0 < adapter.search_page_size) := by
  obtain ⟨co, so, hc, hs, rfl⟩ :=
    (init_ok_iff className registryC registryS kwargs adapter).mp h
  refine ⟨rfl, rfl, ?_, ?_⟩
  · rintro (hn | ⟨t, ht, ht0, ht1⟩)
    · show (0 : ℚ) ≤ kwargs.maximum_similarity_threshold.getD (95 / 100) ∧
        kwargs.maximum_similarity_threshold.getD (95 / 100) ≤ 1
      rw [hn]
      norm_num
    · show (0 : ℚ) ≤ kwargs.maximum_similarity_threshold.getD (95 / 100) ∧
        kwargs.maximum_similarity_threshold.getD (95 / 100) ≤ 1
      rw [ht]
      exact ⟨ht0, ht1⟩
  · rintro (hn | ⟨p, hp, hp0⟩)
    · show (0 : ℤ) < kwargs.search_page_size.getD 1000
      rw [hn]
      norm_num
    · show (0 : ℤ) < kwargs.search_page_size.getD 1000
      rw [hp]
      exact hp0

/-- Witness for the amended C7: with both options omitted the stored
configuration satisfies both bounds. -/
theorem logicAdapter_config_invariant_amended_witness :
    (0 : ℚ) ≤ defaultConstructedAdapter.maximum_similarity_threshold ∧
    defaultConstructedAdapter.maximum_similarity_threshold ≤ 1 ∧
    (0 : ℤ) < defaultConstructedAdapter.search_page_size := by
  have h := logicAdapter_config_invariant_amended "LogicAdapter" [] []
    (⟨none, none, none, none, none⟩ : Kwargs Unit) defaultConstructedAdapter rfl
  exact ⟨(h.2.2.1 (Or.inl rfl)).1, (h.2.2.1 (Or.inl rfl)).2, h.2.2.2 (Or.inl rfl)⟩

/-- C8: `class_name` of a constructed adapter is exactly the concrete class
name the instance was constructed with; as a total pure projection it has no
side effects and cannot fail. -/
theorem logicAdapter_class_name_diagnostic {E : Type} (className : String)
    (registryC : List (String × CompareFn)) (registryS : List (String × SelectFn))
    (kwargs : Kwargs E) (adapter : LogicAdapter E)
    (h : LogicAdapter.init className registryC registryS kwargs = Except.ok adapter) :
    adapter.class_name = className := by
  obtain ⟨co, so, hc, hs, rfl⟩ :=
    (init_ok_iff className registryC registryS kwargs adapter).mp h
  rfl

/-- Witness for C8: the adapter constructed as class `"LogicAdapter"` reports
`"LogicAdapter"`. -/
theorem logicAdapter_class_name_diagnostic_witness :
    defaultConstructedAdapter.class_name = "LogicAdapter" :=
  logicAdapter_class_name_diagnostic "LogicAdapter" [] []
    (⟨none, none, none, none, none⟩ : Kwargs Unit) defaultConstructedAdapter rfl

/-- C9: a strategy option supplied as a value that is not a string (the
non-`str` side of the `isinstance(import_path, str)` test) is stored exactly
as given, with no resolution applied. -/
theorem logicAdapter_init_callable_passthrough {E : Type} (className : String)
    (registryC : List (String × CompareFn)) (registryS : List (String × SelectFn))
    (kwargs : Kwargs E) :
    (∀ (f : CompareFn) (adapter : LogicAdapter E),
        kwargs.statement_comparison_function = some (StrOrFn.fn f) →
        LogicAdapter.init className registryC registryS kwargs = Except.ok adapter →
        adapter.compare_statements = f) ∧
    (∀ (g : SelectFn) (adapter : LogicAdapter E),
        kwargs.response_selection_method = some (StrOrFn.fn g) →
        LogicAdapter.init className registryC registryS kwargs = Except.ok adapter →
        adapter.select_response = g) := by
  constructor
  · intro f adapter hopt h
    obtain ⟨co, so, hc, hs, rfl⟩ :=
      (init_ok_iff className registryC registryS kwargs adapter).mp h
    rw [hopt] at hc
    simp only [resolveOption] at hc
    injection hc with hc
    subst hc
    rfl
  · intro g adapter hopt h
    obtain ⟨co, so, hc, hs, rfl⟩ :=
      (init_ok_iff className registryC registryS kwargs adapter).mp h
    rw [hopt] at hs
    simp only [resolveOption] at hs
    injection hs with hs
    subst hs
    rfl

/-- Witness for C9: a concrete callable supplied for each strategy option is
stored unchanged, bypassing both (empty) registries. -/
theorem logicAdapter_init_callable_passthrough_witness :
    (⟨95 / 100, none, 1000, fun _ _ => 0, get_first_response,
        "LogicAdapter"⟩ : LogicAdapter Unit).compare_statements =
      (fun _ _ => (0 : ℚ)) ∧
    (⟨95 / 100, none, 1000, levenshtein_distance, fun _ => none,
        "LogicAdapter"⟩ : LogicAdapter Unit).select_response =
      (fun _ => (none : Option Statement)) := by
  constructor
  · exact (logicAdapter_init_callable_passthrough "LogicAdapter" [] []
      (⟨some (StrOrFn.fn fun _ _ => 0), none, none, none, none⟩ : Kwargs Unit)).1
      (fun _ _ => 0)
      ⟨95 / 100, none, 1000, fun _ _ => 0, get_first_response, "LogicAdapter"⟩
      rfl rfl
  · exact (logicAdapter_init_callable_passthrough "LogicAdapter" [] []
      (⟨none, some (StrOrFn.fn fun _ => none), none, none, none⟩ : Kwargs Unit)).2
      (fun _ => none)
      ⟨95 / 100, none, 1000, levenshtein_distance, fun _ => none, "LogicAdapter"⟩
      rfl rfl

/-- C10: the `excluded_words` option is stored exactly as supplied (`none` when
absent) without inspection — the constructor is polymorphic in the option's
type, so it cannot examine, convert, or validate the value — and whether
construction succeeds does not depend on it. -/
theorem logicAdapter_init_excluded_words {E : Type} (className : String)
    (registryC : List (String × CompareFn)) (registryS : List (String × SelectFn))
    (kwargs : Kwargs E) :
    (∀ adapter : LogicAdapter E,
        LogicAdapter.init className registryC registryS kwargs = Except.ok adapter →
        adapter.excluded_words = kwargs.excluded_words) ∧
    (∀ w : Option E,
        (LogicAdapter.init className registryC registryS
            { kwargs with excluded_words := w }).isOk =
          (LogicAdapter.init className registryC registryS kwargs).isOk) := by
  constructor
  · intro adapter h
    obtain ⟨co, so, hc, hs, rfl⟩ :=
      (init_ok_iff className registryC registryS kwargs adapter).mp h
    rfl
  · intro w
    obtain ⟨sc, rs, mt, ew, ps⟩ := kwargs
    unfold LogicAdapter.init
    cases hc : resolveOption registryC sc with
    | error e => simp [hc]
    | ok co =>
      cases hs : resolveOption registryS rs with
      | error e => simp [hc, hs]
      | ok so => simp [hc, hs, Except.isOk, Except.toBool]

/-! ## Analysis of the modelled match search -/

/-- The score of the statement just considered never exceeds the updated
running best's score. -/
lemma score_le_bestUpdate (input : Statement) (score_fn : Statement → Statement → ℚ)
    (best : Option ScoredCandidate) (s : Statement) :
    score_fn input s ≤ (bestUpdate input score_fn best s).score := by
  cases best with
  | none => exact le_refl _
  | some b =>
    by_cases h : b.score < score_fn input s
    · simp [bestUpdate, h]
    · simp [bestUpdate, h]
      exact not_lt.mp h

/-- The running best's score never decreases under an update. -/
lemma old_le_bestUpdate (input : Statement) (score_fn : Statement → Statement → ℚ)
    (best : Option ScoredCandidate) (s : Statement) (c : ScoredCandidate)
    (h : best = some c) :
    c.score ≤ (bestUpdate input score_fn best s).score := by
  subst h
  by_cases h : c.score < score_fn input s
  · simp [bestUpdate, h]
    exact le_of_lt h
  · simp [bestUpdate, h]

/-- The updated running best is either the freshly scored statement or the old
running best. -/
lemma bestUpdate_cases (input : Statement) (score_fn : Statement → Statement → ℚ)
    (best : Option ScoredCandidate) (s : Statement) :
    bestUpdate input score_fn best s = ⟨s, score_fn input s⟩ ∨
      ∃ c, best = some c ∧ bestUpdate input score_fn best s = c := by
  cases best with
  | none => exact Or.inl rfl
  | some b =>
    by_cases h : b.score < score_fn input s
    · exact Or.inl (by simp [bestUpdate, h])
    · exact Or.inr ⟨b, rfl, by simp [bestUpdate, h]⟩

/-- Folding the running-best update over a list yields a maximum element of
that list (or the initial candidate), with origin, score, and dominance over
every scored statement accounted for. -/
lemma runBest_spec (input : Statement) (score_fn : Statement → Statement → ℚ) :
    ∀ (l : List Statement) (best : Option ScoredCandidate),
      (runBest input score_fn best l = none → best = none ∧ l = []) ∧
      (∀ b, runBest input score_fn best l = some b →
        (best = some b ∨ b.statement ∈ l ∧ b.score = score_fn input b.statement) ∧
        (∀ s ∈ l, score_fn input s ≤ b.score) ∧
        (∀ c, best = some c → c.score ≤ b.score)) := by
  intro l
  induction l with
  | nil =>
    intro best
    constructor
    · intro h
      exact ⟨h, rfl⟩
    · intro b h
      refine ⟨Or.inl h, ?_, ?_⟩
      · intro s hs
        cases hs
      · intro c hc
        rw [hc] at h
        injection h with h
        rw [h]
  | cons s rest ih =>
    intro best
    have hstep : runBest input score_fn best (s :: rest) =
        runBest input score_fn (some (bestUpdate input score_fn best s)) rest := by
      simp [runBest]
    constructor
    · intro h
      rw [hstep] at h
      obtain ⟨h1, _⟩ := (ih (some (bestUpdate input score_fn best s))).1 h
      cases h1
    · intro b h
      rw [hstep] at h
      obtain ⟨horig, hdom, hold⟩ :=
        (ih (some (bestUpdate input score_fn best s))).2 b h
      have hbu : (bestUpdate input score_fn best s).score ≤ b.score :=
        hold _ rfl
      refine ⟨?_, ?_, ?_⟩
      · rcases horig with hb | ⟨hmem, hsc⟩
        · injection hb with hb
          rcases bestUpdate_cases input score_fn best s with hc | ⟨c, hbest, hc⟩
          · rw [hb] at hc
            exact Or.inr ⟨by rw [hc]; exact List.mem_cons_self s rest, by rw [hc]⟩
          · rw [hb] at hc
            exact Or.inl (by rw [hbest, hc])
        · exact Or.inr ⟨List.mem_cons_of_mem s hmem, hsc⟩
      · intro t ht
        rcases List.mem_cons.mp ht with rfl | ht'
        · exact le_trans (score_le_bestUpdate input score_fn best t) hbu
        · exact hdom t ht'
      · intro c hc
        exact le_trans (old_le_bestUpdate input score_fn best s c hc) hbu

/-- Characterization of one page scan: the scanned statements form a prefix of
the page, the scored ones are exactly its admissible members, the result is the
running-best fold over them, the running best stays below the threshold until
the very last scored statement, an early halt only happens at or above the
threshold, and without a halt the whole page is consumed with the running best
still below the threshold. -/
lemma searchPage_spec (input : Statement) (score_fn : Statement → Statement → ℚ)
    (rejects : String → Bool) (threshold : ℚ) :
    ∀ (l : List Statement) (best res : Option ScoredCandidate)
      (scored : List Statement) (halted : Bool),
      below threshold best →
      searchPage input score_fn rejects threshold best l = (res, scored, halted) →
      ∃ pre post,
        l = pre ++ post ∧
        scored = pre.filter (fun s => !rejects s.text) ∧
        res = runBest input score_fn best scored ∧
        (∀ q r, scored = q ++ r → r ≠ [] →
          below threshold (runBest input score_fn best q)) ∧
        (halted = true → ∃ b, res = some b ∧ threshold ≤ b.score) ∧
        (halted = false → post = [] ∧ below threshold res) := by
  intro l
  induction l with
  | nil =>
    intro best res scored halted hb h
    simp only [searchPage, Prod.mk.injEq] at h
    obtain ⟨rfl, rfl, rfl⟩ := h
    refine ⟨[], [], rfl, rfl, rfl, ?_, ?_, ?_⟩
    · intro q r hqr hr
      exact absurd (List.append_eq_nil.mp hqr.symm).2 hr
    · intro hh
      cases hh
    · intro _
      exact ⟨rfl, hb⟩
  | cons s rest ih =>
    intro best res scored halted hb h
    simp only [searchPage] at h
    by_cases hrej : rejects s.text
    · rw [if_pos hrej] at h
      obtain ⟨pre, post, hl, hsc, hres, hpref, hh, hnh⟩ :=
        ih best res scored halted hb h
      refine ⟨s :: pre, post, by rw [List.cons_append, hl], ?_, hres, hpref, hh, hnh⟩
      rw [List.filter_cons]
      simp [hrej, hsc]
    · rw [if_neg hrej] at h
      by_cases hth : threshold ≤ (bestUpdate input score_fn best s).score
      · rw [if_pos hth] at h
        simp only [Prod.mk.injEq] at h
        obtain ⟨rfl, rfl, rfl⟩ := h
        refine ⟨[s], rest, rfl, ?_, ?_, ?_, ?_, ?_⟩
        · simp [List.filter_cons, hrej]
        · simp [runBest]
        · intro q r hqr hr
          cases q with
          | nil => exact hb
          | cons a q' =>
            rw [List.cons_append] at hqr
            injection hqr with _ hqr'
            exact absurd (List.append_eq_nil.mp hqr'.symm).2 hr
        · intro _
          exact ⟨bestUpdate input score_fn best s, rfl, hth⟩
        · intro hfalse
          cases hfalse
      · rw [if_neg hth] at h
        rcases hrec : searchPage input score_fn rejects threshold
            (some (bestUpdate input score_fn best s)) rest with ⟨res', scored', halted'⟩
        rw [hrec] at h
        simp only [Prod.mk.injEq] at h
        obtain ⟨rfl, rfl, rfl⟩ := h
        have hbu : below threshold (some (bestUpdate input score_fn best s)) := by
          intro c hc
          rw [Option.mem_def] at hc
          injection hc with hc
          rw [← hc]
          exact not_le.mp hth
        obtain ⟨pre, post, hl, hsc, hres, hpref, hh, hnh⟩ :=
          ih (some (bestUpdate input score_fn best s)) res' scored' halted' hbu hrec
        have hstep : ∀ q : List Statement,
            runBest input score_fn best (s :: q) =
              runBest input score_fn (some (bestUpdate input score_fn best s)) q := by
          intro q
          simp [runBest]
        refine ⟨s :: pre, post, by rw [List.cons_append, hl], ?_, ?_, ?_, hh, ?_⟩
        · rw [List.filter_cons]
          simp [hrej, hsc]
        · rw [hstep, hres]
        · intro q r hqr hr
          cases q with
          | nil => exact hb
          | cons a q' =>
            rw [List.cons_append] at hqr
            injection hqr with ha hqr'
            rw [← ha, hstep]
            exact hpref q' r hqr' hr
        · intro hh'
          obtain ⟨hpost, hbel⟩ := hnh hh'
          exact ⟨hpost, hbel⟩

/-- Characterization of the paged scan: the flat corpus splits into a scanned
prefix and an untouched remainder, the scored statements are exactly the
admissible members of the prefix, the result is the running-best fold over
them, the running best stays below the threshold until the last scored
statement, anything left unscanned (statements or whole pages) implies the
result reached the threshold, a below-threshold result implies the corpus was
exhausted, and the unfetched pages are a suffix of the corpus. -/
lemma searchPages_spec (input : Statement) (score_fn : Statement → Statement → ℚ)
    (rejects : String → Bool) (threshold : ℚ) :
    ∀ (pages : List (List Statement)) (best res : Option ScoredCandidate)
      (scored : List Statement) (remaining : List (List Statement)),
      below threshold best →
      searchPages input score_fn rejects threshold best pages =
        (res, scored, remaining) →
      ∃ pre post,
        pages.flatten = pre ++ post ∧
        scored = pre.filter (fun s => !rejects s.text) ∧
        res = runBest input score_fn best scored ∧
        (∀ q r, scored = q ++ r → r ≠ [] →
          below threshold (runBest input score_fn best q)) ∧
        ((post ≠ [] ∨ remaining ≠ []) → ∃ b, res = some b ∧ threshold ≤ b.score) ∧
        (below threshold res → post = [] ∧ remaining = []) ∧
        (∃ consumed, pages = consumed ++ remaining) := by
  intro pages
  induction pages with
  | nil =>
    intro best res scored remaining hb h
    simp only [searchPages, Prod.mk.injEq] at h
    obtain ⟨rfl, rfl, rfl⟩ := h
    refine ⟨[], [], rfl, rfl, rfl, ?_, ?_, fun _ => ⟨rfl, rfl⟩, ⟨[], rfl⟩⟩
    · intro q r hqr hr
      exact absurd (List.append_eq_nil.mp hqr.symm).2 hr
    · rintro (hc | hc) <;> exact absurd rfl hc
  | cons page rest ih =>
    intro best res scored remaining hb h
    simp only [searchPages] at h
    rcases hp : searchPage input score_fn rejects threshold best page with
      ⟨res₁, scored₁, halted₁⟩
    rw [hp] at h
    obtain ⟨pre₁, post₁, hl₁, hsc₁, hres₁, hpref₁, hhalt₁, hnohalt₁⟩ :=
      searchPage_spec input score_fn rejects threshold page best res₁ scored₁
        halted₁ hb hp
    cases halted₁ with
    | true =>
      rw [if_pos rfl] at h
      simp only [Prod.mk.injEq] at h
      obtain ⟨rfl, rfl, rfl⟩ := h
      obtain ⟨b, hbres, hbth⟩ := hhalt₁ rfl
      refine ⟨pre₁, post₁ ++ rest.flatten, ?_, hsc₁, hres₁, hpref₁,
        fun _ => ⟨b, hbres, hbth⟩, ?_, ⟨[page], rfl⟩⟩
      · simp [hl₁]
      · intro hbel
        exact absurd (hbel b (Option.mem_def.mpr hbres)) (not_lt.mpr hbth)
    | false =>
      rw [if_neg Bool.false_ne_true] at h
      rcases hr2 : searchPages input score_fn rejects threshold res₁ rest with
        ⟨res₂, scored₂, remaining₂⟩
      rw [hr2] at h
      simp only [Prod.mk.injEq] at h
      obtain ⟨rfl, rfl, rfl⟩ := h
      obtain ⟨hpost₁, hbel₁⟩ := hnohalt₁ rfl
      subst hpost₁
      rw [List.append_nil] at hl₁
      subst hl₁
      obtain ⟨pre₂, post₂, hl₂, hsc₂, hres₂, hpref₂, hreach₂, hbel₂, consumed₂, hcons₂⟩ :=
        ih res₁ res₂ scored₂ remaining₂ hbel₁ hr2
      have hrb : ∀ q : List Statement,
          runBest input score_fn best (scored₁ ++ q) =
            runBest input score_fn res₁ q := by
        intro q
        rw [hres₁]
        simp [runBest, List.foldl_append]
      refine ⟨page ++ pre₂, post₂, ?_, ?_, ?_, ?_, ?_, ?_, ⟨page :: consumed₂, ?_⟩⟩
      · simp [hl₂]
      · rw [List.filter_append, ← hsc₁, ← hsc₂]
      · rw [hrb]
        exact hres₂
      · intro q r hqr hr
        rcases List.append_eq_append_iff.mp hqr with ⟨w, hw1, hw2⟩ | ⟨w, hw1, hw2⟩
        · rw [hw1, hrb]
          exact hpref₂ w r hw2 hr
        · cases w with
          | nil =>
            rw [List.append_nil] at hw1
            rw [← hw1, ← hres₁]
            exact hbel₁
          | cons a w' =>
            exact hpref₁ q (a :: w') hw1 (by simp)
      · intro hleft
        exact hreach₂ hleft
      · intro hbel
        exact hbel₂ hbel
      · rw [hcons₂]
        rfl

/-- Removing the rejected statements from a page beforehand leaves one page
scan entirely unchanged: a rejected statement is skipped without any effect on
the running best, the scored list, or early termination. -/
lemma searchPage_filter (input : Statement) (score_fn : Statement → Statement → ℚ)
    (rejects : String → Bool) (threshold : ℚ) :
    ∀ (l : List Statement) (best : Option ScoredCandidate),
      searchPage input score_fn rejects threshold best
          (l.filter (fun s => !rejects s.text)) =
        searchPage input score_fn rejects threshold best l := by
  intro l
  induction l with
  | nil =>
    intro best
    rfl
  | cons s rest ih =>
    intro best
    by_cases hrej : rejects s.text
    · rw [List.filter_cons]
      simp only [hrej, Bool.not_true, Bool.false_eq_true, if_false]
      rw [ih best]
      conv_rhs => rw [searchPage]
      rw [if_pos hrej]
    · rw [List.filter_cons]
      simp only [hrej, Bool.not_false, if_true]
      conv_lhs => rw [searchPage]
      conv_rhs => rw [searchPage]
      rw [if_neg hrej, if_neg hrej]
      by_cases hth : threshold ≤ (bestUpdate input score_fn best s).score
      · rw [if_pos hth, if_pos hth]
      · rw [if_neg hth, if_neg hth,
          ih (some (bestUpdate input score_fn best s))]

/-- Removing the rejected statements from every page beforehand changes
neither the result of the paged search nor the list of statements it
scores. -/
lemma searchPages_filter (input : Statement) (score_fn : Statement → Statement → ℚ)
    (rejects : String → Bool) (threshold : ℚ) :
    ∀ (pages : List (List Statement)) (best : Option ScoredCandidate),
      (searchPages input score_fn rejects threshold best
          (pages.map (fun page => page.filter (fun s => !rejects s.text)))).1 =
        (searchPages input score_fn rejects threshold best pages).1 ∧
      (searchPages input score_fn rejects threshold best
          (pages.map (fun page => page.filter (fun s => !rejects s.text)))).2.1 =
        (searchPages input score_fn rejects threshold best pages).2.1 := by
  intro pages
  induction pages with
  | nil =>
    intro best
    exact ⟨rfl, rfl⟩
  | cons page rest ih =>
    intro best
    have hpage := searchPage_filter input score_fn rejects threshold page best
    rw [List.map_cons]
    rcases hp : searchPage input score_fn rejects threshold best page with
      ⟨res₁, scored₁, halted₁⟩
    rw [hp] at hpage
    simp only [searchPages]
    rw [hpage, hp]
    cases halted₁ with
    | true => exact ⟨rfl, rfl⟩
    | false =>
      have hne : ¬(((res₁, scored₁, false) :
          Option ScoredCandidate × List Statement × Bool).2.2 = true) := by simp
      simp only [if_neg hne]
      obtain ⟨h1, h2⟩ := ih res₁
      exact ⟨h1, by rw [h2]⟩

/-- The input statement of spec Scenario A, used to witness the search
claims. -/
def witnessInput : Statement := ⟨"hellp"⟩

/-- A concrete scorer for the search witnesses: `"hello"` scores `0.99`,
everything else `0.2`. -/
def witnessScoreFn : Statement → Statement → ℚ := fun _ s =>
  if s.text = "hello" then 99 / 100 else 1 / 5

/-- A concrete two-page corpus for the search witnesses; the threshold is
reached on the first page, so the second is never fetched. -/
def witnessPages : List (List Statement) := [[⟨"hi"⟩, ⟨"hello"⟩], [⟨"bye"⟩]]

/-- C1: characterization of the paged best-match search. (i) The search scans
a prefix of the corpus, scoring exactly its admissible statements; the result
is the running best over them; before every scored statement but the last the
running best is strictly below the threshold (the halt is immediate, with
inclusive `≥` comparison); anything left unscanned — trailing statements or
unfetched pages — implies the result's score reached the threshold; and a
below-threshold result implies the corpus was exhausted. (ii) If no admissible
statement scores at or above the threshold, the search returns the
maximum-scoring admissible candidate seen, or no candidate when every
statement was excluded or the corpus was empty. -/
theorem mSearch_early_exit_and_max (input : Statement)
    (score_fn : Statement → Statement → ℚ) (rejects : String → Bool)
    (threshold : ℚ) (pages : List (List Statement))
    (res : Option ScoredCandidate) (scored : List Statement)
    (remaining : List (List Statement))
    (h : searchPages input score_fn rejects threshold none pages =
      (res, scored, remaining)) :
    (∃ pre post,
      pages.flatten = pre ++ post ∧
      scored = pre.filter (fun s => !rejects s.text) ∧
      res = runBest input score_fn none scored ∧
      (∀ q r, scored = q ++ r → r ≠ [] →
        below threshold (runBest input score_fn none q)) ∧
      ((post ≠ [] ∨ remaining ≠ []) → ∃ b, res = some b ∧ threshold ≤ b.score) ∧
      (below threshold res → post = [] ∧ remaining = [])) ∧
    ((∀ s ∈ pages.flatten, rejects s.text = false → score_fn input s < threshold) →
      (res = none ↔ pages.flatten.filter (fun s => !rejects s.text) = []) ∧
      (∀ b, res = some b →
        b.statement ∈ pages.flatten ∧ rejects b.statement.text = false ∧
        b.score = score_fn input b.statement ∧
        (∀ s ∈ pages.flatten, rejects s.text = false →
          score_fn input s ≤ b.score))) := by
  have hnone : below threshold (none : Option ScoredCandidate) := by
    intro b hb
    rw [Option.mem_def] at hb
    cases hb
  obtain ⟨pre, post, hflat, hsc, hres, hpref, hreach, hexh, _⟩ :=
    searchPages_spec input score_fn rejects threshold pages none res scored
      remaining hnone h
  refine ⟨⟨pre, post, hflat, hsc, hres, hpref, hreach, hexh⟩, ?_⟩
  intro hall
  have hbel : below threshold res := by
    intro b hb
    rw [Option.mem_def] at hb
    obtain ⟨horig, hdom, _⟩ :=
      (runBest_spec input score_fn scored none).2 b (by rw [← hres]; exact hb)
    rcases horig with hx | ⟨hmem, hscb⟩
    · cases hx
    · obtain ⟨hmem', hadm⟩ := List.mem_filter.mp (hsc ▸ hmem)
      have hrejF : rejects b.statement.text = false := by simpa using hadm
      have hmemflat : b.statement ∈ pages.flatten := by
        rw [hflat]
        exact List.mem_append.mpr (Or.inl hmem')
      rw [hscb]
      exact hall b.statement hmemflat hrejF
  obtain ⟨hpost, hrem⟩ := hexh hbel
  rw [hpost, List.append_nil] at hflat
  have hscfl : scored = pages.flatten.filter (fun s => !rejects s.text) := by
    rw [hsc, ← hflat]
  refine ⟨⟨?_, ?_⟩, ?_⟩
  · intro hresnone
    have hempty :=
      (runBest_spec input score_fn scored none).1 (by rw [← hres]; exact hresnone)
    rw [← hscfl]
    exact hempty.2
  · intro hfil
    rw [hres, hscfl.trans hfil]
    rfl
  · intro b hb
    obtain ⟨horig, hdom, _⟩ :=
      (runBest_spec input score_fn scored none).2 b (by rw [← hres]; exact hb)
    rcases horig with hx | ⟨hmem, hscb⟩
    · cases hx
    · obtain ⟨hmemfl, hadm⟩ := List.mem_filter.mp (hscfl ▸ hmem)
      refine ⟨hmemfl, by simpa using hadm, hscb, ?_⟩
      intro s hs hrejs
      have hsin : s ∈ scored := by
        rw [hscfl]
        exact List.mem_filter.mpr ⟨hs, by simp [hrejs]⟩
      exact hdom s hsin

/-- Witness for C1: on Scenario A's corpus the search halts on the first page
with `"hello"` at score `0.99 ≥ 0.95`, leaving the second page unfetched. -/
theorem mSearch_early_exit_and_max_witness :
    (searchPages witnessInput witnessScoreFn (fun _ => false) (95 / 100)
        none witnessPages).1 = some ⟨⟨"hello"⟩, 99 / 100⟩ ∧
    (searchPages witnessInput witnessScoreFn (fun _ => false) (95 / 100)
        none witnessPages).2.2 = [[⟨"bye"⟩]] ∧
    (95 / 100 : ℚ) ≤ 99 / 100 := by
  have hs1 : (("hi" : String) = "hello") = False := eq_false (by decide)
  have hs2 : (("bye" : String) = "hello") = False := eq_false (by decide)
  have h0 : searchPages witnessInput witnessScoreFn (fun _ => false) (95 / 100)
      none witnessPages =
      (some ⟨⟨"hello"⟩, 99 / 100⟩, [⟨"hi"⟩, ⟨"hello"⟩], [[⟨"bye"⟩]]) := by
    norm_num [searchPages, searchPage, bestUpdate, witnessScoreFn, witnessPages,
      witnessInput, hs1, hs2]
  obtain ⟨⟨pre, post, h1, h2, h3, h4, h5, h6⟩, _⟩ :=
    mSearch_early_exit_and_max witnessInput witnessScoreFn (fun _ => false)
      (95 / 100) witnessPages (some ⟨⟨"hello"⟩, 99 / 100⟩) [⟨"hi"⟩, ⟨"hello"⟩]
      [[⟨"bye"⟩]] h0
  obtain ⟨b, hbeq, hbs⟩ := h5 (Or.inr (by simp))
  refine ⟨by rw [h0], by rw [h0], ?_⟩
  injection hbeq with hbeq
  rw [← hbeq] at hbs
  exact hbs

/-- C6: a statement rejected by the exclusion filter is never the returned
best candidate, and rejected statements have no effect on the search at all:
removing them from every page beforehand changes neither the result nor the
statements that get scored — in particular a rejected statement never
triggers early termination. -/
theorem mSearch_excluded_never_best (excluded : List String) (input : Statement)
    (score_fn : Statement → Statement → ℚ) (threshold : ℚ)
    (pages : List (List Statement)) :
    (∀ b, mSearch input score_fn (ExclusionFilter.rejects excluded) threshold
        pages = some b →
      ExclusionFilter.rejects excluded b.statement.text = false) ∧
    (searchPages input score_fn (ExclusionFilter.rejects excluded) threshold none
        (pages.map (fun page => page.filter
          (fun s => !ExclusionFilter.rejects excluded s.text)))).1 =
      (searchPages input score_fn (ExclusionFilter.rejects excluded) threshold
        none pages).1 ∧
    (searchPages input score_fn (ExclusionFilter.rejects excluded) threshold none
        (pages.map (fun page => page.filter
          (fun s => !ExclusionFilter.rejects excluded s.text)))).2.1 =
      (searchPages input score_fn (ExclusionFilter.rejects excluded) threshold
        none pages).2.1 := by
  have hnone : below threshold (none : Option ScoredCandidate) := by
    intro b hb
    rw [Option.mem_def] at hb
    cases hb
  refine ⟨?_,
    (searchPages_filter input score_fn (ExclusionFilter.rejects excluded)
      threshold pages none).1,
    (searchPages_filter input score_fn (ExclusionFilter.rejects excluded)
      threshold pages none).2⟩
  intro b hb
  unfold mSearch at hb
  rcases hS : searchPages input score_fn (ExclusionFilter.rejects excluded)
      threshold none pages with ⟨res, scored, remaining⟩
  rw [hS] at hb
  obtain ⟨pre, post, hflat, hsc, hres, _, _, _, _⟩ :=
    searchPages_spec input score_fn (ExclusionFilter.rejects excluded) threshold
      pages none res scored remaining hnone hS
  obtain ⟨horig, _, _⟩ :=
    (runBest_spec input score_fn scored none).2 b (by rw [← hres]; exact hb)
  rcases horig with hx | ⟨hmem, _⟩
  · cases hx
  · obtain ⟨_, hadm⟩ := List.mem_filter.mp (hsc ▸ hmem)
    simpa using hadm

/-- Witness for C6: with `excluded_words = ["damn"]` and a corpus whose first
statement contains "damn" and would otherwise reach the threshold, the search
returns the admissible statement `"hi"` instead. -/
theorem mSearch_excluded_never_best_witness :
    ExclusionFilter.rejects ["damn"] "hi" = false := by
  have hrej1 : ExclusionFilter.rejects ["damn"] "damn hello" = true := by decide
  have hrej2 : ExclusionFilter.rejects ["damn"] "hi" = false := by decide
  have h0 : mSearch ⟨"x"⟩ (fun _ _ => 1) (ExclusionFilter.rejects ["damn"]) (1 / 2)
      [[⟨"damn hello"⟩, ⟨"hi"⟩]] = some ⟨⟨"hi"⟩, 1⟩ := by
    norm_num [mSearch, searchPages, searchPage, bestUpdate, hrej1, hrej2]
  exact (mSearch_excluded_never_best ["damn"] ⟨"x"⟩ (fun _ _ => 1) (1 / 2)
    [[⟨"damn hello"⟩, ⟨"hi"⟩]]).1 ⟨⟨"hi"⟩, 1⟩ h0

/-- Witness for C10: a concrete supplied exclusion list is stored exactly, and
an absent option is stored as `none`. -/
theorem logicAdapter_init_excluded_words_witness :
    (⟨95 / 100, some ["damn"], 1000, levenshtein_distance, get_first_response,
        "LogicAdapter"⟩ : LogicAdapter (List String)).excluded_words =
      some ["damn"] ∧
    defaultConstructedAdapter.excluded_words = none := by
  constructor
  · exact (logicAdapter_init_excluded_words "LogicAdapter" [] []
      (⟨none, none, none, some ["damn"], none⟩ : Kwargs (List String))).1
      ⟨95 / 100, some ["damn"], 1000, levenshtein_distance, get_first_response,
        "LogicAdapter"⟩ rfl
  · exact (logicAdapter_init_excluded_words "LogicAdapter" [] []
      (⟨none, none, none, none, none⟩ : Kwargs Unit)).1 defaultConstructedAdapter rfl

